import Mathlib

/-!
Verification of the espefuse burn-key engine (esp32 / esp32c6 / esp32p4
operation modules) against its natural-language specification.

The Python sources under `src/espefuse/efuse/*/operations.py` are embedded
shallowly: key payloads are `List Nat` (one entry per byte), block and purpose
names are `String`, and the staging side effects performed on the in-memory
eFuse state (`efuse.save`, `key_purpose.save`, `disable_read`, `disable_write`,
`burn_all`) are recorded as an ordered event list.  A run of `burn_key` is a
pure function from the chip description and the batch to the ordered event list
together with an optional fatal error (the first `FatalError` raised, if any).
-/

namespace Espefuse

/-- Staging / hardware events emitted by a burn-key run, in program order.
`saveKey` is `efuse.save(data)` on a key block, `savePurpose` is
`key_purpose.save(value)`, `disableRead` / `disableWrite` are the read- and
write-protection staging calls on the key block, `disableWritePurpose` is
`disable_write` on the key-purpose field, and `burnAll` is the single call to
`self.efuses.burn_all` that commits the batch to hardware. -/
inductive Ev where
  | saveKey (block : String) (data : List Nat)
  | savePurpose (purposeField : String) (value : String)
  | disableWritePurpose (purposeField : String)
  | disableRead (block : String)
  | disableWrite (block : String)
  | burnAll
  deriving DecidableEq, Repr

/-- The distinct `esptool.FatalError` messages raised by the embedded code,
one constructor per raise site, carrying the data interpolated into the
message. -/
inductive Err where
  /-- `util.check_duplicate_name_in_list`: a block name occurs twice. -/
  | duplicateBlock (name : String)
  /-- "The number of blocks (%d), datafile (%d) and keypurpose (%d) should be the same." -/
  | countMismatch (nBlocks nData nPurpose : Nat)
  /-- "The number of blocks (%d) and datafile (%d) should be the same." (esp32) -/
  | countMismatch2 (nBlocks nData : Nat)
  /-- "Unknown block name - %s" -/
  | unknownBlock (name : String)
  /-- "Incorrect key file size %d. Key file must be %d bytes ..." -/
  | sizeMismatch (actual expected : Nat)
  /-- "It is not possible to change '%s' to '%s' because write protection bit is set." -/
  | protectionViolation (purposeField : String) (value : String)
  /-- "Incorrect key file size %d, XTS_AES_256_KEY should be 64 bytes" -/
  | xtsSize (actual : Nat)
  /-- "XTS_AES_256_KEY requires two free keyblocks" -/
  | xtsNoFreeBlock
  /-- "burn_key_digest only works with 'None' coding scheme" (esp32) -/
  | codingScheme
  /-- "Incorrect chip revision for Secure boot v2. ... Expected: >= v3.0" (esp32) -/
  | chipRevision (detected : Nat)
  deriving DecidableEq, Repr

/-- One eFuse key block of the chip-variant table, together with the burned
(hardware-observed) state the run starts from.  `keyPurposeName` is the name of
the block's key-purpose field (`""` when the block has none, mirroring the
Python truthiness test `if b.key_purpose_name`); `purposeValue` is that field's
current burned value (`"USER"` when unset) and `purposeWriteable` its
write-protection state; `bitstringZero` records whether the block's burned
bitstring is all-zero (`block.get_bitstring().all(False)`). -/
structure KeyBlock where
  name : String
  aliases : List String
  bitLen : Nat
  keyPurposeName : String
  readable : Bool
  writeable : Bool
  purposeValue : String
  purposeWriteable : Bool
  bitstringZero : Bool
  deriving DecidableEq, Repr

/-- The chip-variant description a burn-key run reads: the block table plus the
per-purpose quirk predicates `EfuseKeyPurposeField.need_reverse` and
`need_rd_protect`. -/
structure Chip where
  blocks : List KeyBlock
  needReverse : String → Bool
  needRdProtect : String → Bool

/-- Block resolution from `burn_key`'s inner loop:
`for block in self.efuses.blocks: if block_name == block.name or block_name in
block.alias: efuse = ...` — the loop keeps the **last** matching block. -/
def findEfuse (blocks : List KeyBlock) (blockName : String) : Option KeyBlock :=
  blocks.foldl
    (fun acc b => if blockName == b.name || blockName ∈ b.aliases then some b else acc)
    none

/-- Modelled from the spec: `util.check_duplicate_name_in_list` is not under
`src/`; per §4.4(a) and §7 a batch containing the same block name twice fails
with the duplicate-name fatal error.  Returns the first name that occurs at
least twice. -/
def checkDuplicateNameInList (l : List String) : Option String :=
  l.find? (fun n => 2 ≤ l.count n)

/-- Python `zip` over three equal-length lists (the lengths have been checked
by the time the loop runs; on unequal lengths it stops at the shortest, as
`zip` does). -/
def zip3 : List α → List β → List γ → List (α × β × γ)
  | a :: as, b :: bs, c :: cs => (a, b, c) :: zip3 as bs cs
  | _, _, _ => []

/-! ### ESP32-C6 `burn_key` (src/espefuse/efuse/esp32c6/operations.py)

`Esp32C6Commands.burn_key` processes one batch entry: resolve the block,
compute its byte width, reverse the payload when the purpose needs it, check
the payload size, then stage the key data, the purpose value, and the
protection bits.  The `digest` parameter only changes where the raw bytes come
from (file read vs. precomputed digest); in the embedding both are the entry's
byte list. -/

/-- The shared shape of the per-entry loops of the `burn_key` commands:
entries are processed in order, the first raised `FatalError` aborts the run
keeping the events already staged, and a clean run ends with the `burn_all`
commit call. -/
def runEntries (entry : α → List Ev × Option Err) : List α → List Ev × Option Err
  | [] => ([Ev.burnAll], none)
  | a :: rest =>
    match entry a with
    | (evs, some e) => (evs, some e)
    | (evs, none) =>
      let r := runEntries entry rest
      (evs ++ r.1, r.2)

/-- One iteration of the `for block_name, datafile, keypurpose in zip(...)`
loop of `Esp32C6Commands.burn_key`, returning the staged events and the fatal
error, if one is raised. -/
def burnEntryC6 (chip : Chip) (noWriteProtect noReadProtect : Bool)
    (blockName : String) (fileBytes : List Nat) (keypurpose : String) :
    List Ev × Option Err :=
  match findEfuse chip.blocks blockName with
  | none => ([], some (.unknownBlock blockName))
  | some blk =>
    let numBytes := blk.bitLen / 8
    let data := if chip.needReverse keypurpose then fileBytes.reverse else fileBytes
    if data.length ≠ numBytes then
      ([], some (.sizeMismatch data.length numBytes))
    else
      let readProtect := chip.needRdProtect keypurpose && !noReadProtect
      let writeProtect := !noWriteProtect
      if blk.purposeValue ≠ keypurpose then
        if blk.purposeWriteable then
          ([Ev.saveKey blk.name data,
            Ev.savePurpose blk.keyPurposeName keypurpose,
            Ev.disableWritePurpose blk.keyPurposeName]
            ++ (if readProtect then [Ev.disableRead blk.name] else [])
            ++ (if writeProtect then [Ev.disableWrite blk.name] else []), none)
        else
          ([Ev.saveKey blk.name data],
           some (.protectionViolation blk.keyPurposeName keypurpose))
      else
        ([Ev.saveKey blk.name data]
          ++ (if blk.purposeWriteable then [Ev.disableWritePurpose blk.keyPurposeName] else [])
          ++ (if readProtect then [Ev.disableRead blk.name] else [])
          ++ (if writeProtect then [Ev.disableWrite blk.name] else []), none)

/-- The entry loop of `Esp32C6Commands.burn_key`. -/
def burnLoopC6 (chip : Chip) (noWriteProtect noReadProtect : Bool)
    (entries : List (String × List Nat × String)) : List Ev × Option Err :=
  runEntries
    (fun e => burnEntryC6 chip noWriteProtect noReadProtect e.1 e.2.1 e.2.2) entries

/-- `Esp32C6Commands.burn_key` (after the trailing-`None` truncation, which is
the identity on the `None`-free lists the CLI passes): duplicate-name check,
count check, then the entry loop and the final `burn_all`. -/
def burnKeyC6 (chip : Chip) (noWriteProtect noReadProtect : Bool)
    (blockNames : List String) (datafiles : List (List Nat))
    (keypurposes : List String) : List Ev × Option Err :=
  match checkDuplicateNameInList blockNames with
  | some n => ([], some (.duplicateBlock n))
  | none =>
    if blockNames.length ≠ datafiles.length ∨ blockNames.length ≠ keypurposes.length then
      ([], some (.countMismatch blockNames.length datafiles.length keypurposes.length))
    else
      burnLoopC6 chip noWriteProtect noReadProtect (zip3 blockNames datafiles keypurposes)

/-- The payload of the first `saveKey` event of a run, if any. -/
def stagedKeyData : List Ev → Option (List Nat)
  | [] => none
  | Ev.saveKey _ d :: _ => some d
  | _ :: rest => stagedKeyData rest

/-! ### ESP32-P4 `burn_key` (src/espefuse/efuse/esp32p4/operations.py)

`Esp32P4Commands` adds the 512-bit wide-key split (`_split_512_bit_key`,
`_get_next_key_block`, `_key_block_is_unused`) performed **before** the
duplicate-name and count checks, and an ECDSA branch that obtains the raw
signing-key bytes from the external `espsecure` utility (modelled as the
function argument `ecdsaRaw`) and pads a 24-byte NIST192p key with 8 leading
zero bytes. -/

/-- `Esp32P4Commands._key_block_is_unused`: readable, writeable, key purpose
still `"USER"` with a writeable purpose field, and an all-zero burned
bitstring. -/
def keyBlockIsUnused (b : KeyBlock) : Bool :=
  b.readable && b.writeable && b.purposeValue == "USER" && b.purposeWriteable
    && b.bitstringZero

/-- `Esp32P4Commands._get_next_key_block`: rotate the list of key blocks
(blocks with a key-purpose field) so that it starts at the current block,
exclude every block whose name is in the batch's block-name list, and return
the first remaining block that `_key_block_is_unused` accepts. -/
def getNextKeyBlock (chip : Chip) (current : KeyBlock) (blockNames : List String) :
    Option KeyBlock :=
  let keyBlocks := chip.blocks.filter (fun b => b.keyPurposeName != "")
  let start := keyBlocks.findIdx (fun b => b.name == current.name)
  let rotated := keyBlocks.drop start ++ keyBlocks.take start
  let remaining := rotated.filter (fun b => !(blockNames.contains b.name))
  remaining.find? keyBlockIsUnused

/-- `Esp32P4Commands._split_512_bit_key`: take the first batch entry with
purpose `XTS_AES_256_KEY`, require its payload to be 64 bytes long, find a
second free key block, and replace the entry by two appended 32-byte entries
(`XTS_AES_256_KEY_1` on the original block, `XTS_AES_256_KEY_2` on the found
block).  Block resolution (`get_index_block_by_name`) happens before the size
check, as in the source. -/
def split512 (chip : Chip) (blockNames : List String)
    (datafiles : List (List Nat)) (keypurposes : List String) :
    Except Err (List String × List (List Nat) × List String) :=
  let i := keypurposes.findIdx (· == "XTS_AES_256_KEY")
  let blockName := blockNames.getD i ""
  let data := datafiles.getD i []
  match findEfuse chip.blocks blockName with
  | none => .error (.unknownBlock blockName)
  | some blk =>
    if data.length ≠ 64 then .error (.xtsSize data.length)
    else
      match getNextKeyBlock chip blk blockNames with
      | none => .error .xtsNoFreeBlock
      | some keyBlock2 =>
        .ok (blockNames.eraseIdx i ++ [blockName, keyBlock2.name],
             datafiles.eraseIdx i ++ [data.take 32, data.drop 32],
             keypurposes.eraseIdx i ++ ["XTS_AES_256_KEY_1", "XTS_AES_256_KEY_2"])

/-- The NIST192p padding of `Esp32P4Commands.burn_key`'s ECDSA branch:
`if len(data) == 24: data = b"\x00" * 8 + data`. -/
def ecdsaPad (raw : List Nat) : List Nat :=
  if raw.length = 24 then List.replicate 8 0 ++ raw else raw

/-- The payload an ESP32-P4 batch entry stages, before the size check: when
the run is not in digest mode and the purpose is `ECDSA_KEY`, the bytes are
the external utility's raw signing-key bytes (`ecdsaRaw fileBytes`) with the
24-byte padding applied; then the byte order is reversed when the purpose
needs it. -/
def entryDataP4 (chip : Chip) (ecdsaRaw : List Nat → List Nat) (digestMode : Bool)
    (fileBytes : List Nat) (keypurpose : String) : List Nat :=
  let data0 :=
    if !digestMode && keypurpose == "ECDSA_KEY" then ecdsaPad (ecdsaRaw fileBytes)
    else fileBytes
  if chip.needReverse keypurpose then data0.reverse else data0

/-- One iteration of the entry loop of `Esp32P4Commands.burn_key`. -/
def burnEntryP4 (chip : Chip) (ecdsaRaw : List Nat → List Nat) (digestMode : Bool)
    (noWriteProtect noReadProtect : Bool)
    (blockName : String) (fileBytes : List Nat) (keypurpose : String) :
    List Ev × Option Err :=
  match findEfuse chip.blocks blockName with
  | none => ([], some (.unknownBlock blockName))
  | some blk =>
    let numBytes := blk.bitLen / 8
    let data := entryDataP4 chip ecdsaRaw digestMode fileBytes keypurpose
    if data.length ≠ numBytes then
      ([], some (.sizeMismatch data.length numBytes))
    else
      let readProtect := chip.needRdProtect keypurpose && !noReadProtect
      let writeProtect := !noWriteProtect
      if blk.purposeValue ≠ keypurpose then
        if blk.purposeWriteable then
          ([Ev.saveKey blk.name data,
            Ev.savePurpose blk.keyPurposeName keypurpose,
            Ev.disableWritePurpose blk.keyPurposeName]
            ++ (if readProtect then [Ev.disableRead blk.name] else [])
            ++ (if writeProtect then [Ev.disableWrite blk.name] else []), none)
        else
          ([Ev.saveKey blk.name data],
           some (.protectionViolation blk.keyPurposeName keypurpose))
      else
        ([Ev.saveKey blk.name data]
          ++ (if blk.purposeWriteable then [Ev.disableWritePurpose blk.keyPurposeName] else [])
          ++ (if readProtect then [Ev.disableRead blk.name] else [])
          ++ (if writeProtect then [Ev.disableWrite blk.name] else []), none)

/-- The entry loop of `Esp32P4Commands.burn_key`. -/
def burnLoopP4 (chip : Chip) (ecdsaRaw : List Nat → List Nat) (digestMode : Bool)
    (noWriteProtect noReadProtect : Bool)
    (entries : List (String × List Nat × String)) : List Ev × Option Err :=
  runEntries
    (fun e => burnEntryP4 chip ecdsaRaw digestMode noWriteProtect noReadProtect
      e.1 e.2.1 e.2.2) entries

/-- The batch-level checks of `Esp32P4Commands.burn_key` that follow the split
phase: duplicate-name check, count check, then the entry loop. -/
def burnKeyP4Main (chip : Chip) (ecdsaRaw : List Nat → List Nat) (digestMode : Bool)
    (noWriteProtect noReadProtect : Bool) (blockNames : List String)
    (datafiles : List (List Nat)) (keypurposes : List String) :
    List Ev × Option Err :=
  match checkDuplicateNameInList blockNames with
  | some n => ([], some (.duplicateBlock n))
  | none =>
    if blockNames.length ≠ datafiles.length ∨ blockNames.length ≠ keypurposes.length then
      ([], some (.countMismatch blockNames.length datafiles.length keypurposes.length))
    else
      burnLoopP4 chip ecdsaRaw digestMode noWriteProtect noReadProtect
        (zip3 blockNames datafiles keypurposes)

/-- `Esp32P4Commands.burn_key`: if any entry requests `XTS_AES_256_KEY`, the
512-bit split runs first (before the duplicate-name and count checks); the
checks and the entry loop then run on the resulting lists. -/
def burnKeyP4 (chip : Chip) (ecdsaRaw : List Nat → List Nat) (digestMode : Bool)
    (noWriteProtect noReadProtect : Bool) (blockNames : List String)
    (datafiles : List (List Nat)) (keypurposes : List String) :
    List Ev × Option Err :=
  if "XTS_AES_256_KEY" ∈ keypurposes then
    match split512 chip blockNames datafiles keypurposes with
    | .error e => ([], some e)
    | .ok (bs, ds, ks) =>
      burnKeyP4Main chip ecdsaRaw digestMode noWriteProtect noReadProtect bs ds ks
  else
    burnKeyP4Main chip ecdsaRaw digestMode noWriteProtect noReadProtect
      blockNames datafiles keypurposes

/-! ### ESP32 legacy `burn_key` / `burn_key_digest`
(src/espefuse/efuse/esp32/operations.py)

The legacy chip has no key-purpose fields: the payload is byte-reversed and
the key block read-protected exactly when the batch names the block
`"flash_encryption"` or `"secure_boot_v1"`, and a single `--no-protect-key`
flag suppresses both protections.  `Esp32Commands.burn_key` itself never
consults the active coding scheme; only `burn_key_digest` asserts it, before
the chip-revision check. -/

/-- The ESP32 chip state read by the legacy commands: the block table and the
active coding scheme (`self.efuses.coding_scheme == CODING_SCHEME_34`).  The
key-purpose fields of `KeyBlock` are unused on this variant. -/
structure Esp32Chip where
  blocks : List KeyBlock
  codingScheme34 : Bool

/-- One iteration of the entry loop of `Esp32Commands.burn_key`. -/
def burnEntryEsp32 (chip : Esp32Chip) (noProtectKey : Bool)
    (blockName : String) (fileBytes : List Nat) : List Ev × Option Err :=
  match findEfuse chip.blocks blockName with
  | none => ([], some (.unknownBlock blockName))
  | some blk =>
    let numBytes := blk.bitLen / 8
    let reversed := blockName == "flash_encryption" || blockName == "secure_boot_v1"
    let data := if reversed then fileBytes.reverse else fileBytes
    if data.length ≠ numBytes then
      ([], some (.sizeMismatch data.length numBytes))
    else
      ([Ev.saveKey blk.name data]
        ++ (if reversed && !noProtectKey then [Ev.disableRead blk.name] else [])
        ++ (if !noProtectKey then [Ev.disableWrite blk.name] else []), none)

/-- The entry loop of `Esp32Commands.burn_key`. -/
def burnLoopEsp32 (chip : Esp32Chip) (noProtectKey : Bool)
    (entries : List (String × List Nat)) : List Ev × Option Err :=
  runEntries (fun e => burnEntryEsp32 chip noProtectKey e.1 e.2) entries

/-- `Esp32Commands.burn_key`: duplicate-name check, two-way count check, entry
loop, `burn_all`.  Note that the function never inspects
`chip.codingScheme34`. -/
def burnKeyEsp32 (chip : Esp32Chip) (noProtectKey : Bool)
    (blockNames : List String) (datafiles : List (List Nat)) :
    List Ev × Option Err :=
  match checkDuplicateNameInList blockNames with
  | some n => ([], some (.duplicateBlock n))
  | none =>
    if blockNames.length ≠ datafiles.length then
      ([], some (.countMismatch2 blockNames.length datafiles.length))
    else
      burnLoopEsp32 chip noProtectKey (blockNames.zip datafiles)

/-- `Esp32Commands.burn_key_digest`: assert the coding scheme is not the 3/4
scheme, assert the chip revision is at least v3.0 (300), then resolve
`BLOCK2`, check the digest size, stage it, write-protect unless suppressed,
and commit.  The digest bytes come from the external
`espsecure._digest_sbv2_public_key` and are a parameter. -/
def burnKeyDigestEsp32 (chip : Esp32Chip) (chipRevision : Nat)
    (digest : List Nat) (noProtectKey : Bool) : List Ev × Option Err :=
  if chip.codingScheme34 then ([], some .codingScheme)
  else if chipRevision < 300 then ([], some (.chipRevision chipRevision))
  else
    match findEfuse chip.blocks "BLOCK2" with
    | none => ([], some (.unknownBlock "BLOCK2"))
    | some blk =>
      let numBytes := blk.bitLen / 8
      if digest.length ≠ numBytes then
        ([], some (.sizeMismatch digest.length numBytes))
      else
        ([Ev.saveKey blk.name digest]
          ++ (if !noProtectKey then [Ev.disableWrite blk.name] else [])
          ++ [Ev.burnAll], none)

/-! ### Helper lemmas about the entry loop and the event list -/

theorem runEntries_cons_error {entry : α → List Ev × Option Err} {a : α}
    {evs : List Ev} {e : Err} (h : entry a = (evs, some e)) (l : List α) :
    runEntries entry (a :: l) = (evs, some e) := by
  simp [runEntries, h]

theorem runEntries_cons_ok {entry : α → List Ev × Option Err} {a : α}
    {evs : List Ev} (h : entry a = (evs, none)) (l : List α) :
    runEntries entry (a :: l)
      = (evs ++ (runEntries entry l).1, (runEntries entry l).2) := by
  simp [runEntries, h]

/-- If no single entry ever emits the `burn_all` event, a failed run does not
contain it either: the commit is only reached after the whole loop. -/
theorem runEntries_error_no_burnAll {entry : α → List Ev × Option Err}
    (hent : ∀ a, Ev.burnAll ∉ (entry a).1) (l : List α)
    (h : (runEntries entry l).2 ≠ none) :
    Ev.burnAll ∉ (runEntries entry l).1 := by
  induction l with
  | nil => simp [runEntries] at h
  | cons a rest ih =>
    rcases ha : entry a with ⟨evs, oe⟩
    cases oe with
    | some e =>
      rw [runEntries_cons_error ha]
      intro hm
      exact hent a (by rw [ha]; exact hm)
    | none =>
      rw [runEntries_cons_ok ha] at h ⊢
      simp only [List.mem_append]
      rintro (hm | hm)
      · exact hent a (by rw [ha]; exact hm)
      · exact ih h hm

/-- A run containing an entry that fails cannot finish cleanly. -/
theorem runEntries_error_of_mem (entry : α → List Ev × Option Err)
    {l : List α} {a : α} (hmem : a ∈ l) (h : (entry a).2 ≠ none) :
    (runEntries entry l).2 ≠ none := by
  induction l with
  | nil => cases hmem
  | cons b rest ih =>
    rcases hb : entry b with ⟨evs, oe⟩
    cases oe with
    | some e => rw [runEntries_cons_error hb]; simp
    | none =>
      rw [runEntries_cons_ok hb]
      rcases List.mem_cons.mp hmem with rfl | hmem2
      · rw [hb] at h; simp at h
      · exact ih hmem2

/-- If no entry of the batch stages a purpose write, the whole run stages
none. -/
theorem runEntries_no_savePurpose {entry : α → List Ev × Option Err}
    {l : List α} (hent : ∀ a ∈ l, ∀ f v, Ev.savePurpose f v ∉ (entry a).1) :
    ∀ f v, Ev.savePurpose f v ∉ (runEntries entry l).1 := by
  induction l with
  | nil => intro f v; simp [runEntries]
  | cons a rest ih =>
    intro f v
    rcases ha : entry a with ⟨evs, oe⟩
    have hhead : Ev.savePurpose f v ∉ evs := by
      have := hent a (List.mem_cons_self a rest) f v
      rw [ha] at this
      exact this
    cases oe with
    | some e => rw [runEntries_cons_error ha]; exact hhead
    | none =>
      rw [runEntries_cons_ok ha]
      simp only [List.mem_append]
      rintro (hm | hm)
      · exact hhead hm
      · exact ih (fun b hb => hent b (List.mem_cons_of_mem a hb)) f v hm

theorem stagedKeyData_saveKey (b : String) (d : List Nat) (t : List Ev) :
    stagedKeyData (Ev.saveKey b d :: t) = some d := rfl

/-- Decomposition of a successful `find?` over a `filter`: the found element
is the first element of the original list passing both predicates. -/
theorem find_filter_split {p q : α → Bool} {l : List α} {a : α}
    (h : (l.filter q).find? p = some a) :
    ∃ l₁ l₂, l = l₁ ++ a :: l₂
      ∧ (∀ x ∈ l₁, q x = false ∨ p x = false) ∧ q a = true ∧ p a = true := by
  induction l with
  | nil => simp [List.filter] at h
  | cons b rest ih =>
    by_cases hq : q b
    · rw [List.filter_cons_of_pos hq] at h
      by_cases hp : p b
      · rw [List.find?_cons_of_pos _ hp] at h
        obtain rfl : b = a := by injection h
        exact ⟨[], rest, by simp, by simp, hq, hp⟩
      · rw [List.find?_cons_of_neg _ hp] at h
        obtain ⟨l₁, l₂, hl, hfst, hqa, hpa⟩ := ih h
        exact ⟨b :: l₁, l₂, by simp [hl],
          by
            intro x hx
            rcases List.mem_cons.mp hx with rfl | hx2
            · exact Or.inr (by simpa using hp)
            · exact hfst x hx2,
          hqa, hpa⟩
    · rw [List.filter_cons_of_neg hq] at h
      obtain ⟨l₁, l₂, hl, hfst, hqa, hpa⟩ := ih h
      exact ⟨b :: l₁, l₂, by simp [hl],
        by
          intro x hx
          rcases List.mem_cons.mp hx with rfl | hx2
          · exact Or.inl (by simpa using hq)
          · exact hfst x hx2,
        hqa, hpa⟩

/-! ### Concrete configurations used by the witnesses and counterexamples -/

/-- A free 256-bit key block (purpose unset, unprotected, unburned). -/
def blockK0 : KeyBlock :=
  ⟨"BLOCK_KEY0", ["KEY0"], 256, "KEY_PURPOSE_0", true, true, "USER", true, true⟩

/-- A key block already holding a burned key with a locked purpose. -/
def blockK1 : KeyBlock :=
  ⟨"BLOCK_KEY1", ["KEY1"], 256, "KEY_PURPOSE_1", true, true, "XTS_AES_128_KEY",
    false, false⟩

/-- A second free 256-bit key block. -/
def blockK2 : KeyBlock :=
  ⟨"BLOCK_KEY2", ["KEY2"], 256, "KEY_PURPOSE_2", true, true, "USER", true, true⟩

/-- A key-purpose chip with one occupied and two free key blocks, with the
XTS purposes marked as needing byte reversal and read protection. -/
def testChip : Chip :=
  { blocks := [blockK0, blockK1, blockK2],
    needReverse := fun p =>
      p == "XTS_AES_128_KEY" || p == "XTS_AES_256_KEY_1" || p == "XTS_AES_256_KEY_2",
    needRdProtect := fun p =>
      p == "XTS_AES_128_KEY" || p == "XTS_AES_256_KEY_1"
        || p == "XTS_AES_256_KEY_2" || p == "ECDSA_KEY" }

/-- A free key block whose key-purpose field is already write-protected. -/
def blockWP : KeyBlock :=
  ⟨"BLOCK_KEY0", ["KEY0"], 256, "KEY_PURPOSE_0", true, true, "USER", false, true⟩

/-- A chip whose only key block has a write-protected purpose field. -/
def chipWP : Chip :=
  { blocks := [blockWP], needReverse := fun _ => false, needRdProtect := fun _ => false }

/-- The legacy ESP32 key-block table (key-purpose fields unused). -/
def esp32Blocks : List KeyBlock :=
  [⟨"BLOCK1", ["flash_encryption"], 256, "", true, true, "", true, false⟩,
   ⟨"BLOCK2", ["secure_boot_v1", "secure_boot_v2"], 256, "", true, true, "", true, false⟩,
   ⟨"BLOCK3", [], 256, "", true, true, "", true, false⟩]

/-- ESP32 with the `none` coding scheme active. -/
def esp32Test : Esp32Chip := ⟨esp32Blocks, false⟩

/-- ESP32 with the redundant 3/4 coding scheme active. -/
def esp32Test34 : Esp32Chip := ⟨esp32Blocks, true⟩

/-- A 32-byte payload. -/
def key32 : List Nat := List.replicate 32 1

/-- A 31-byte payload (one byte short of a 256-bit block). -/
def key31 : List Nat := List.replicate 31 1

/-- A non-palindromic 32-byte payload (distinct from its byte reversal). -/
def keyAsym : List Nat := 7 :: List.replicate 31 0

/-- A 64-byte wide-key payload with pairwise distinct bytes. -/
def key64 : List Nat := List.range 64

/-- A 63-byte payload (one byte short of a wide key). -/
def key63 : List Nat := List.range 63

/-! ### Entry-level lemmas for the ESP32-C6 loop body -/

theorem burnEntryC6_no_burnAll (chip : Chip) (nwp nrp : Bool)
    (bn : String) (d : List Nat) (kp : String) :
    Ev.burnAll ∉ (burnEntryC6 chip nwp nrp bn d kp).1 := by
  unfold burnEntryC6
  cases findEfuse chip.blocks bn with
  | none => simp
  | some blk =>
    dsimp only
    split_ifs <;> simp

theorem burnEntryC6_size_error {chip : Chip} {nwp nrp : Bool}
    {bn : String} {d : List Nat} {kp : String} {blk : KeyBlock}
    (hfind : findEfuse chip.blocks bn = some blk)
    (hbad : d.length ≠ blk.bitLen / 8) :
    burnEntryC6 chip nwp nrp bn d kp
      = ([], some (.sizeMismatch d.length (blk.bitLen / 8))) := by
  unfold burnEntryC6
  rw [hfind]
  dsimp only
  by_cases hr : chip.needReverse kp
  · simp [hr, hbad]
  · simp [hr, hbad]

theorem burnEntryC6_no_savePurpose_of_eq {chip : Chip} {nwp nrp : Bool}
    {bn : String} {d : List Nat} {kp : String}
    (h : ∀ blk, findEfuse chip.blocks bn = some blk → blk.purposeValue = kp) :
    ∀ f v, Ev.savePurpose f v ∉ (burnEntryC6 chip nwp nrp bn d kp).1 := by
  intro f v
  unfold burnEntryC6
  cases hf : findEfuse chip.blocks bn with
  | none => simp
  | some blk =>
    have heq := h blk hf
    dsimp only
    simp only [heq]
    split_ifs <;> simp_all

theorem checkDup_singleton (s : String) : checkDuplicateNameInList [s] = none := by
  simp [checkDuplicateNameInList, List.find?]

/-! ### Claims -/

/-- C4: for every `burn_key` entry whose requested purpose equals the block's
current burned key-purpose value, no purpose write is staged (`save` is never
called on the key-purpose field) — neither by the entry itself nor anywhere in
a run consisting of that entry — so re-running the same burn is idempotent
with respect to the purpose field. -/
theorem c4_purpose_already_set_idempotent
    (chip : Chip) (nwp nrp : Bool) (bn : String) (d : List Nat) (kp : String)
    (blk : KeyBlock)
    (hfind : findEfuse chip.blocks bn = some blk)
    (heq : blk.purposeValue = kp) :
    (∀ f v, Ev.savePurpose f v ∉ (burnEntryC6 chip nwp nrp bn d kp).1) ∧
    (∀ f v, Ev.savePurpose f v ∉ (burnKeyC6 chip nwp nrp [bn] [d] [kp]).1) := by
  have hent : ∀ f v, Ev.savePurpose f v ∉ (burnEntryC6 chip nwp nrp bn d kp).1 :=
    burnEntryC6_no_savePurpose_of_eq (fun blk2 h2 => by
      rw [hfind] at h2
      injection h2 with h3
      rw [← h3]
      exact heq)
  refine ⟨hent, ?_⟩
  intro f v
  unfold burnKeyC6
  rw [checkDup_singleton]
  rw [if_neg (by simp)]
  unfold burnLoopC6
  apply runEntries_no_savePurpose
  intro a ha f' v'
  have haa : a = (bn, d, kp) := by simpa [zip3] using ha
  subst haa
  exact hent f' v'

theorem c4_witness :
    Ev.savePurpose "KEY_PURPOSE_1" "XTS_AES_128_KEY"
      ∉ (burnKeyC6 testChip false false ["BLOCK_KEY1"] [key32]
          ["XTS_AES_128_KEY"]).1 :=
  (c4_purpose_already_set_idempotent testChip false false "BLOCK_KEY1" key32
    "XTS_AES_128_KEY" blockK1 (by decide) (by decide)).2
    "KEY_PURPOSE_1" "XTS_AES_128_KEY"

/-- C5 (counterexample): on the legacy ESP32 the byte reversal *is*
block-dependent: the same chip variant and the same input bytes are staged
reversed for block `flash_encryption` but unreversed for block `BLOCK3`, with
no purpose in play — refuting "purpose- and chip-variant-dependent, not
block-dependent". -/
theorem c5_counterexample :
    stagedKeyData (burnKeyEsp32 esp32Test false ["flash_encryption"] [keyAsym]).1
        = some keyAsym.reverse
    ∧ stagedKeyData (burnKeyEsp32 esp32Test false ["BLOCK3"] [keyAsym]).1
        = some keyAsym
    ∧ keyAsym.reverse ≠ keyAsym := by
  exact ⟨by decide, by decide, by decide⟩

/-- C5 (amended): for every purpose flagged `need_reverse`, the staged data is
the byte-wise reverse of the data staged for the same input under an unflagged
purpose — a pure transform applied before `save()`; on the key-purpose chip
variants the flag is purpose-dependent, while on the legacy ESP32 the reversal
is keyed by the batch's block name (`flash_encryption`, `secure_boot_v1`). -/
theorem c5_reversal_amended
    (chip : Chip) (nwp nrp : Bool) (bn : String) (fb : List Nat)
    (kpRev kpPlain : String) (blk : KeyBlock)
    (hfind : findEfuse chip.blocks bn = some blk)
    (hlen : fb.length = blk.bitLen / 8)
    (hrev : chip.needReverse kpRev = true)
    (hplain : chip.needReverse kpPlain = false) :
    (stagedKeyData (burnEntryC6 chip nwp nrp bn fb kpRev).1 = some fb.reverse
      ∧ stagedKeyData (burnEntryC6 chip nwp nrp bn fb kpPlain).1 = some fb)
    ∧ (∀ (chip32 : Esp32Chip) (npk : Bool) (bn32 : String) (fb32 : List Nat)
          (blk32 : KeyBlock),
        findEfuse chip32.blocks bn32 = some blk32 →
        fb32.length = blk32.bitLen / 8 →
        stagedKeyData (burnEntryEsp32 chip32 npk bn32 fb32).1
          = some (if bn32 == "flash_encryption" || bn32 == "secure_boot_v1"
                  then fb32.reverse else fb32)) := by
  refine ⟨⟨?_, ?_⟩, ?_⟩
  · unfold burnEntryC6
    rw [hfind]
    dsimp only
    split_ifs <;> simp_all [stagedKeyData]
  · unfold burnEntryC6
    rw [hfind]
    dsimp only
    split_ifs <;> simp_all [stagedKeyData]
  · intro chip32 npk bn32 fb32 blk32 hf32 hlen32
    unfold burnEntryEsp32
    rw [hf32]
    dsimp only
    split_ifs <;> simp_all [stagedKeyData]

theorem c5_witness :
    stagedKeyData (burnEntryC6 testChip false false "BLOCK_KEY0" keyAsym
        "XTS_AES_128_KEY").1 = some keyAsym.reverse :=
  (c5_reversal_amended testChip false false "BLOCK_KEY0" keyAsym
    "XTS_AES_128_KEY" "ECDSA_KEY" blockK0 (by decide) (by decide) (by decide)
    (by decide)).1.1

/-- C6: a `burn_key` invocation containing an entry whose payload length
differs from the target block's byte width never reaches `burn_all`; when that
entry is the first of the batch (and the batch-level checks pass), the run
fails with the size-mismatch error reporting the actual and the expected byte
counts, with nothing staged. -/
theorem c6_size_mismatch_aborts
    (chip : Chip) (nwp nrp : Bool) (bs : List String) (ds : List (List Nat))
    (ks : List String) (bn : String) (d : List Nat) (kp : String) (blk : KeyBlock)
    (hmem : (bn, d, kp) ∈ zip3 bs ds ks)
    (hfind : findEfuse chip.blocks bn = some blk)
    (hbad : d.length ≠ blk.bitLen / 8) :
    burnEntryC6 chip nwp nrp bn d kp
        = ([], some (.sizeMismatch d.length (blk.bitLen / 8)))
    ∧ ((burnKeyC6 chip nwp nrp bs ds ks).2 ≠ none
      ∧ Ev.burnAll ∉ (burnKeyC6 chip nwp nrp bs ds ks).1)
    ∧ (∀ bs' ds' ks', bs = bn :: bs' → ds = d :: ds' → ks = kp :: ks' →
        checkDuplicateNameInList bs = none →
        bs.length = ds.length → bs.length = ks.length →
        burnKeyC6 chip nwp nrp bs ds ks
          = ([], some (.sizeMismatch d.length (blk.bitLen / 8)))) := by
  refine ⟨burnEntryC6_size_error hfind hbad, ?_, ?_⟩
  · unfold burnKeyC6
    cases hdup : checkDuplicateNameInList bs with
    | some n => simp
    | none =>
      split_ifs with hc
      · simp
      · unfold burnLoopC6
        have herr : ((fun e : String × List Nat × String =>
            burnEntryC6 chip nwp nrp e.1 e.2.1 e.2.2) (bn, d, kp)).2 ≠ none := by
          dsimp only
          rw [burnEntryC6_size_error hfind hbad]
          simp
        have h2 := runEntries_error_of_mem
          (fun e : String × List Nat × String =>
            burnEntryC6 chip nwp nrp e.1 e.2.1 e.2.2) hmem herr
        exact ⟨h2, runEntries_error_no_burnAll
          (fun a : String × List Nat × String =>
            burnEntryC6_no_burnAll chip nwp nrp a.1 a.2.1 a.2.2) _ h2⟩
  · intro bs' ds' ks' hb hd hk hdup hl1 hl2
    subst hb; subst hd; subst hk
    unfold burnKeyC6
    rw [hdup]
    rw [if_neg (by omega)]
    unfold burnLoopC6
    have : zip3 (bn :: bs') (d :: ds') (kp :: ks')
        = (bn, d, kp) :: zip3 bs' ds' ks' := rfl
    rw [this]
    exact runEntries_cons_error
      (by dsimp only; exact burnEntryC6_size_error hfind hbad) _

theorem c6_witness :
    burnKeyC6 testChip false false ["BLOCK_KEY0"] [key31] ["AES_256_KEY"]
      = ([], some (Err.sizeMismatch 31 32)) :=
  (c6_size_mismatch_aborts testChip false false ["BLOCK_KEY0"] [key31]
    ["AES_256_KEY"] "BLOCK_KEY0" key31 "AES_256_KEY" blockK0 (by decide)
    (by decide) (by decide)).2.2 [] [] [] rfl rfl rfl (by decide) rfl rfl

/-- C7: for every entry that is staged without error, read-protection of the
key block is staged iff the requested purpose is in the chip's
needs-read-protect set and the suppression flag was not passed; and an entry
that fails never stages read-protection. -/
theorem c7_read_protect_iff
    (chip : Chip) (nwp nrp : Bool) (bn : String) (d : List Nat) (kp : String)
    (blk : KeyBlock)
    (hfind : findEfuse chip.blocks bn = some blk) :
    ((burnEntryC6 chip nwp nrp bn d kp).2 = none →
      (Ev.disableRead blk.name ∈ (burnEntryC6 chip nwp nrp bn d kp).1
        ↔ (chip.needRdProtect kp = true ∧ nrp = false))) ∧
    (∀ e, (burnEntryC6 chip nwp nrp bn d kp).2 = some e →
      Ev.disableRead blk.name ∉ (burnEntryC6 chip nwp nrp bn d kp).1) := by
  unfold burnEntryC6
  rw [hfind]
  dsimp only
  split_ifs <;>
    simp_all [List.mem_append, Bool.and_eq_true, Bool.not_eq_true']

theorem c7_witness :
    Ev.disableRead "BLOCK_KEY0"
      ∈ (burnEntryC6 testChip false false "BLOCK_KEY0" key32
          "XTS_AES_128_KEY").1 :=
  ((c7_read_protect_iff testChip false false "BLOCK_KEY0" key32
    "XTS_AES_128_KEY" blockK0 (by decide)).1 (by decide)).mpr
    ⟨by decide, rfl⟩

/-- C10: for every entry that resolves and passes the size check and does not
hit the purpose write-protection error, write-protection of the key-purpose
field is staged iff the purpose field is still writeable — in both the
"new purpose staged" and the "purpose already correct" branches — and this is
independent of the no-write-protect flag, which controls only the
write-protection of the key data block. -/
theorem c10_purpose_field_write_protect
    (chip : Chip) (nrp : Bool) (bn : String) (d : List Nat) (kp : String)
    (blk : KeyBlock)
    (hfind : findEfuse chip.blocks bn = some blk)
    (hlen : d.length = blk.bitLen / 8)
    (hok : blk.purposeValue = kp ∨ blk.purposeWriteable = true) :
    ∀ nwp : Bool,
      (Ev.disableWritePurpose blk.keyPurposeName
          ∈ (burnEntryC6 chip nwp nrp bn d kp).1 ↔ blk.purposeWriteable = true)
      ∧ (Ev.disableWrite blk.name ∈ (burnEntryC6 chip nwp nrp bn d kp).1
          ↔ nwp = false) := by
  intro nwp
  unfold burnEntryC6
  rw [hfind]
  dsimp only
  split_ifs <;>
    simp_all [List.mem_append, List.length_reverse, Bool.not_eq_true']

theorem c10_witness :
    Ev.disableWritePurpose "KEY_PURPOSE_0"
      ∈ (burnEntryC6 testChip true false "BLOCK_KEY0" key32
          "XTS_AES_128_KEY").1 :=
  ((c10_purpose_field_write_protect testChip false "BLOCK_KEY0" key32
    "XTS_AES_128_KEY" blockK0 (by decide) (by decide) (Or.inr (by decide)))
    true).1.mpr (by decide)

/-- C2 (counterexample): with the block's key-purpose field write-protected
and a different purpose requested, the run does raise the protection
`FatalError`, but the key payload *has already been staged* for that block by
the preceding `efuse.save(data)` call — refuting "no key data ... is staged
for that block". -/
theorem c2_counterexample :
    (burnKeyC6 chipWP false false ["BLOCK_KEY0"] [key32] ["XTS_AES_128_KEY"]).2
        = some (Err.protectionViolation "KEY_PURPOSE_0" "XTS_AES_128_KEY")
    ∧ Ev.saveKey "BLOCK_KEY0" key32
        ∈ (burnKeyC6 chipWP false false ["BLOCK_KEY0"] [key32]
            ["XTS_AES_128_KEY"]).1 := by
  exact ⟨by decide, by decide⟩

/-- C2 (amended): once a block's key-purpose field is write-protected, a
`burn_key` entry requesting a different purpose raises the protection
`FatalError`; no purpose value is staged and the batch is never committed
(`burn_all` is not reached), but the key payload itself has already been
staged into the block's pending state by the `save` call preceding the
check. -/
theorem c2_protection_violation_amended
    (chip : Chip) (nwp nrp : Bool) (bn : String) (d : List Nat) (kp : String)
    (blk : KeyBlock)
    (hfind : findEfuse chip.blocks bn = some blk)
    (hlen : d.length = blk.bitLen / 8)
    (hne : blk.purposeValue ≠ kp)
    (hwp : blk.purposeWriteable = false) :
    burnEntryC6 chip nwp nrp bn d kp
        = ([Ev.saveKey blk.name (if chip.needReverse kp then d.reverse else d)],
           some (.protectionViolation blk.keyPurposeName kp))
    ∧ (burnKeyC6 chip nwp nrp [bn] [d] [kp]).2
        = some (.protectionViolation blk.keyPurposeName kp)
    ∧ Ev.burnAll ∉ (burnKeyC6 chip nwp nrp [bn] [d] [kp]).1
    ∧ (∀ f v, Ev.savePurpose f v ∉ (burnKeyC6 chip nwp nrp [bn] [d] [kp]).1) := by
  have hentry : burnEntryC6 chip nwp nrp bn d kp
      = ([Ev.saveKey blk.name (if chip.needReverse kp then d.reverse else d)],
         some (.protectionViolation blk.keyPurposeName kp)) := by
    unfold burnEntryC6
    rw [hfind]
    dsimp only
    split_ifs <;> simp_all [List.length_reverse]
  have hrun : burnKeyC6 chip nwp nrp [bn] [d] [kp]
      = ([Ev.saveKey blk.name (if chip.needReverse kp then d.reverse else d)],
         some (.protectionViolation blk.keyPurposeName kp)) := by
    unfold burnKeyC6
    rw [checkDup_singleton]
    rw [if_neg (by simp)]
    unfold burnLoopC6
    exact runEntries_cons_error (by dsimp only; exact hentry) _
  refine ⟨hentry, by rw [hrun], by rw [hrun]; simp, by rw [hrun]; simp⟩

theorem c2_witness :
    burnEntryC6 chipWP true true "BLOCK_KEY0" key32 "AES_256_KEY"
      = ([Ev.saveKey "BLOCK_KEY0" key32],
         some (Err.protectionViolation "KEY_PURPOSE_0" "AES_256_KEY")) := by
  have h := (c2_protection_violation_amended chipWP true true "BLOCK_KEY0"
    key32 "AES_256_KEY" blockWP (by decide) (by decide) (by decide)
    (by decide)).1
  simpa using h

/-- The first error of a run satisfies any property that every entry's own
error satisfies. -/
theorem runEntries_error_kind {entry : α → List Ev × Option Err} {P : Err → Prop}
    (hent : ∀ a e, (entry a).2 = some e → P e) (l : List α) :
    ∀ e, (runEntries entry l).2 = some e → P e := by
  induction l with
  | nil => intro e he; simp [runEntries] at he
  | cons a rest ih =>
    intro e he
    rcases ha : entry a with ⟨evs, oe⟩
    cases oe with
    | some e2 =>
      rw [runEntries_cons_error ha] at he
      have he2 : e2 = e := by simpa using he
      subst he2
      exact hent a e2 (by rw [ha])
    | none =>
      rw [runEntries_cons_ok ha] at he
      exact ih e he

/-- The entry loop of the legacy `burn_key` can only raise unknown-block or
size-mismatch errors — never the coding-scheme error. -/
theorem burnEntryEsp32_not_codingScheme (chip : Esp32Chip) (npk : Bool)
    (bn : String) (d : List Nat) :
    ∀ e, (burnEntryEsp32 chip npk bn d).2 = some e → e ≠ Err.codingScheme := by
  intro e he hcontra
  subst hcontra
  unfold burnEntryEsp32 at he
  cases hf : findEfuse chip.blocks bn with
  | none => rw [hf] at he; simp at he
  | some blk =>
    rw [hf] at he
    dsimp only at he
    split_ifs at he <;> simp_all

/-- C9 (counterexample): a 28-byte raw ECDSA signing key — shorter than the
32-byte block width — is *not* zero-padded (only a 24-byte key is), so the
staged payload does not get the block's full byte width and the entry fails
the size check instead. -/
theorem c9_counterexample :
    ecdsaPad (List.replicate 28 2) = List.replicate 28 2
    ∧ burnEntryP4 testChip (fun _ => List.replicate 28 2) false false false
        "BLOCK_KEY0" [] "ECDSA_KEY"
      = ([], some (Err.sizeMismatch 28 32)) := by
  exact ⟨by decide, by decide⟩

/-- C9 (amended): the raw signing-key bytes from the external utility are
zero-padded on the left exactly when they are 24 bytes long (the NIST192p
case), producing the block's full 32-byte width; 32-byte keys are staged
as-is; any other length is left unpadded and fails the size check. -/
theorem c9_ecdsa_padding_amended
    (chip : Chip) (ecdsaRaw : List Nat → List Nat) (nwp nrp : Bool)
    (bn : String) (fb : List Nat) (blk : KeyBlock)
    (hfind : findEfuse chip.blocks bn = some blk)
    (hbits : blk.bitLen = 256)
    (hnr : chip.needReverse "ECDSA_KEY" = false) :
    ((ecdsaRaw fb).length = 24 →
        stagedKeyData (burnEntryP4 chip ecdsaRaw false nwp nrp bn fb
            "ECDSA_KEY").1
            = some (List.replicate 8 0 ++ ecdsaRaw fb)
          ∧ (List.replicate 8 0 ++ ecdsaRaw fb).length = 32) ∧
    ((ecdsaRaw fb).length = 32 →
        stagedKeyData (burnEntryP4 chip ecdsaRaw false nwp nrp bn fb
            "ECDSA_KEY").1
            = some (ecdsaRaw fb)) ∧
    ((ecdsaRaw fb).length ≠ 24 → (ecdsaRaw fb).length ≠ 32 →
        burnEntryP4 chip ecdsaRaw false nwp nrp bn fb "ECDSA_KEY"
          = ([], some (.sizeMismatch (ecdsaRaw fb).length 32))) := by
  have hdata24 : (ecdsaRaw fb).length = 24 →
      entryDataP4 chip ecdsaRaw false fb "ECDSA_KEY"
        = List.replicate 8 0 ++ ecdsaRaw fb := by
    intro h
    unfold entryDataP4 ecdsaPad
    simp [h, hnr]
  have hdataOther : (ecdsaRaw fb).length ≠ 24 →
      entryDataP4 chip ecdsaRaw false fb "ECDSA_KEY" = ecdsaRaw fb := by
    intro h
    unfold entryDataP4 ecdsaPad
    simp [h, hnr]
  refine ⟨?_, ?_, ?_⟩
  · intro h24
    refine ⟨?_, by simp [h24]⟩
    unfold burnEntryP4
    rw [hfind]
    dsimp only
    rw [hdata24 h24, hbits]
    rw [if_neg (by simp [h24])]
    split_ifs <;> simp [stagedKeyData]
  · intro h32
    unfold burnEntryP4
    rw [hfind]
    dsimp only
    rw [hdataOther (by omega), hbits]
    rw [if_neg (by simp [h32])]
    split_ifs <;> simp [stagedKeyData]
  · intro h24 h32
    unfold burnEntryP4
    rw [hfind]
    dsimp only
    rw [hdataOther h24, hbits]
    rw [if_pos (by simpa using h32)]

theorem c9_witness :
    stagedKeyData (burnEntryP4 testChip (fun _ => List.replicate 24 9) false
        false false "BLOCK_KEY0" [] "ECDSA_KEY").1
      = some (List.replicate 8 0 ++ List.replicate 24 9) :=
  ((c9_ecdsa_padding_amended testChip (fun _ => List.replicate 24 9) false
    false "BLOCK_KEY0" [] blockK0 (by decide) (by decide) (by decide)).1
    (by decide)).1

/-- C8 (counterexample): with the redundant 3/4 coding scheme active,
`Esp32Commands.burn_key` raises no coding-scheme `FatalError` at all — the
burn proceeds to `burn_all` — refuting "burn-key operations first assert that
the active coding scheme is 'none'" for the `burn_key` operation. -/
theorem c8_counterexample :
    esp32Test34.codingScheme34 = true
    ∧ (burnKeyEsp32 esp32Test34 false ["flash_encryption"] [key32]).2 = none
    ∧ Ev.burnAll ∈ (burnKeyEsp32 esp32Test34 false ["flash_encryption"]
        [key32]).1 := by
  exact ⟨by decide, by decide, by decide⟩

/-- C8 (amended): on the legacy ESP32, only `burn_key_digest` asserts the
coding scheme, failing fast (before any staging) with the coding-scheme
`FatalError` when the 3/4 scheme is active, and — with the scheme check
passed — failing fast when the detected chip revision is below v3.0;
`burn_key` itself performs no coding-scheme assertion and can never raise that
error. -/
theorem c8_digest_checks_amended (chip : Esp32Chip) (rev : Nat)
    (digest : List Nat) (npk : Bool) :
    (chip.codingScheme34 = true →
        burnKeyDigestEsp32 chip rev digest npk = ([], some .codingScheme)) ∧
    (chip.codingScheme34 = false → rev < 300 →
        burnKeyDigestEsp32 chip rev digest npk
          = ([], some (.chipRevision rev))) ∧
    (∀ (npk2 : Bool) (bs : List String) (ds : List (List Nat)),
        (burnKeyEsp32 chip npk2 bs ds).2 ≠ some Err.codingScheme) := by
  refine ⟨?_, ?_, ?_⟩
  · intro h
    unfold burnKeyDigestEsp32
    rw [h]
    simp
  · intro h hrev
    unfold burnKeyDigestEsp32
    rw [h]
    simp [hrev]
  · intro npk2 bs ds
    unfold burnKeyEsp32
    cases hdup : checkDuplicateNameInList bs with
    | some n => simp
    | none =>
      split_ifs with hc
      · simp
      · unfold burnLoopEsp32
        intro hcontra
        exact runEntries_error_kind
          (fun a e he =>
            burnEntryEsp32_not_codingScheme chip npk2 a.1 a.2 e he)
          _ Err.codingScheme hcontra rfl

theorem c8_witness :
    burnKeyDigestEsp32 esp32Test34 350 key32 false
      = ([], some Err.codingScheme) :=
  (c8_digest_checks_amended esp32Test34 350 key32 false).1 rfl

/-! ### Entry-level lemmas for the ESP32-P4 loop body -/

theorem burnEntryP4_no_burnAll (chip : Chip) (er : List Nat → List Nat)
    (dm nwp nrp : Bool) (bn : String) (d : List Nat) (kp : String) :
    Ev.burnAll ∉ (burnEntryP4 chip er dm nwp nrp bn d kp).1 := by
  unfold burnEntryP4
  cases findEfuse chip.blocks bn with
  | none => simp
  | some blk =>
    dsimp only
    split_ifs <;> simp

theorem burnEntryP4_unknown {chip : Chip} {er : List Nat → List Nat}
    {dm nwp nrp : Bool} {bn : String} {d : List Nat} {kp : String}
    (hfind : findEfuse chip.blocks bn = none) :
    burnEntryP4 chip er dm nwp nrp bn d kp = ([], some (.unknownBlock bn)) := by
  unfold burnEntryP4
  rw [hfind]

theorem burnEntryP4_size_error {chip : Chip} {er : List Nat → List Nat}
    {dm nwp nrp : Bool} {bn : String} {d : List Nat} {kp : String}
    {blk : KeyBlock} {n : Nat}
    (hfind : findEfuse chip.blocks bn = some blk)
    (hn : (entryDataP4 chip er dm d kp).length = n)
    (hbad : n ≠ blk.bitLen / 8) :
    burnEntryP4 chip er dm nwp nrp bn d kp
      = ([], some (.sizeMismatch n (blk.bitLen / 8))) := by
  unfold burnEntryP4
  rw [hfind]
  dsimp only
  rw [hn, if_pos hbad]

/-- C3: on ESP32-P4 a 64-byte `XTS_AES_256_KEY` payload is split into two
32-byte halves: the first stays on the named block as `XTS_AES_256_KEY_1`,
the second goes as `XTS_AES_256_KEY_2` to the first key block — scanning in
index order from the original block and wrapping — that is readable,
writeable, has purpose `USER` with a writeable purpose field, an all-zero
burned bitstring, and is not named elsewhere in the batch; with no such block
the operation fails with the two-free-keyblocks `FatalError`. -/
theorem c3_wide_key_split
    (chip : Chip) (bs : List String) (ds : List (List Nat)) (ks : List String)
    (i : Nat) (bn : String) (d : List Nat) (blk : KeyBlock)
    (hi : ks.findIdx (· == "XTS_AES_256_KEY") = i)
    (hbn : bs.getD i "" = bn)
    (hd : ds.getD i [] = d)
    (hfind : findEfuse chip.blocks bn = some blk)
    (hxts : "XTS_AES_256_KEY" ∈ ks)
    (hlen : d.length = 64) :
    (getNextKeyBlock chip blk bs = none →
        split512 chip bs ds ks = .error .xtsNoFreeBlock
        ∧ ∀ er dm nwp nrp, burnKeyP4 chip er dm nwp nrp bs ds ks
            = ([], some .xtsNoFreeBlock)) ∧
    (∀ b2, getNextKeyBlock chip blk bs = some b2 →
        (split512 chip bs ds ks
          = .ok (bs.eraseIdx i ++ [bn, b2.name],
                 ds.eraseIdx i ++ [d.take 32, d.drop 32],
                 ks.eraseIdx i ++ ["XTS_AES_256_KEY_1", "XTS_AES_256_KEY_2"]))
        ∧ (d.take 32).length = 32 ∧ (d.drop 32).length = 32
        ∧ d.take 32 ++ d.drop 32 = d
        ∧ (∀ er dm nwp nrp, burnKeyP4 chip er dm nwp nrp bs ds ks
            = burnKeyP4Main chip er dm nwp nrp
                (bs.eraseIdx i ++ [bn, b2.name])
                (ds.eraseIdx i ++ [d.take 32, d.drop 32])
                (ks.eraseIdx i ++ ["XTS_AES_256_KEY_1", "XTS_AES_256_KEY_2"]))
        ∧ b2.readable = true ∧ b2.writeable = true
        ∧ b2.purposeValue = "USER" ∧ b2.purposeWriteable = true
        ∧ b2.bitstringZero = true ∧ b2.name ∉ bs
        ∧ ∃ pre post,
            (let keyBlocks := chip.blocks.filter (fun b => b.keyPurposeName != "")
             let start := keyBlocks.findIdx (fun b => b.name == blk.name)
             keyBlocks.drop start ++ keyBlocks.take start) = pre ++ b2 :: post
            ∧ ∀ b ∈ pre, b.name ∈ bs ∨ keyBlockIsUnused b = false) := by
  constructor
  · intro hnone
    have hs : split512 chip bs ds ks = .error .xtsNoFreeBlock := by
      unfold split512
      dsimp only
      rw [hi, hbn, hd, hfind]
      dsimp only
      rw [if_neg (by simp [hlen]), hnone]
    refine ⟨hs, ?_⟩
    intro er dm nwp nrp
    unfold burnKeyP4
    rw [if_pos hxts, hs]
  · intro b2 hsome
    have hs : split512 chip bs ds ks
        = .ok (bs.eraseIdx i ++ [bn, b2.name],
               ds.eraseIdx i ++ [d.take 32, d.drop 32],
               ks.eraseIdx i ++ ["XTS_AES_256_KEY_1", "XTS_AES_256_KEY_2"]) := by
      unfold split512
      dsimp only
      rw [hi, hbn, hd, hfind]
      dsimp only
      rw [if_neg (by simp [hlen]), hsome]
    have hscan := hsome
    unfold getNextKeyBlock at hscan
    dsimp only at hscan
    obtain ⟨pre, post, hrot, hfirst, hq, hp⟩ := find_filter_split hscan
    have hb2mem : b2.name ∉ bs := by simpa using hq
    have hunused : keyBlockIsUnused b2 = true := hp
    have hu2 := hunused
    unfold keyBlockIsUnused at hu2
    simp only [Bool.and_eq_true, beq_iff_eq] at hu2
    obtain ⟨⟨⟨⟨hr, hw⟩, hpv⟩, hpw⟩, hbz⟩ := hu2
    refine ⟨hs, by simp [hlen], by simp [hlen], List.take_append_drop 32 d,
      ?_, hr, hw, hpv, hpw, hbz, hb2mem, pre, post, ?_, ?_⟩
    · intro er dm nwp nrp
      unfold burnKeyP4
      rw [if_pos hxts, hs]
    · dsimp only
      exact hrot
    · intro b hb
      rcases hfirst b hb with hq2 | hp2
      · exact Or.inl (by simpa using hq2)
      · exact Or.inr hp2

theorem c3_witness :
    split512 testChip ["BLOCK_KEY0"] [key64] ["XTS_AES_256_KEY"]
      = .ok (["BLOCK_KEY0", "BLOCK_KEY2"],
             [key64.take 32, key64.drop 32],
             ["XTS_AES_256_KEY_1", "XTS_AES_256_KEY_2"]) := by
  have h := (c3_wide_key_split testChip ["BLOCK_KEY0"] [key64]
    ["XTS_AES_256_KEY"] 0 "BLOCK_KEY0" key64 blockK0 (by decide) (by decide)
    (by decide) (by decide) (by decide) (by decide)).2 blockK2 (by decide)
  exact h.1

/-- An error in `burn_key_digest`-style or `burn_key` batch checks never
reaches the `burn_all` commit (ESP32-P4 post-split phase). -/
theorem burnKeyP4Main_error_no_burnAll (chip : Chip) (er : List Nat → List Nat)
    (dm nwp nrp : Bool) (bs : List String) (ds : List (List Nat))
    (ks : List String) :
    (burnKeyP4Main chip er dm nwp nrp bs ds ks).2 ≠ none →
    Ev.burnAll ∉ (burnKeyP4Main chip er dm nwp nrp bs ds ks).1 := by
  unfold burnKeyP4Main
  cases checkDuplicateNameInList bs with
  | some n => intro h; simp
  | none =>
    split_ifs with hc
    · intro h; simp
    · unfold burnLoopP4
      intro h
      exact runEntries_error_no_burnAll
        (fun a : String × List Nat × String =>
          burnEntryP4_no_burnAll chip er dm nwp nrp a.1 a.2.1 a.2.2) _ h

/-- C1 (counterexample): on ESP32-P4 the wide-key split runs *before* the
duplicate-name check: a batch naming `BLOCK_KEY0` twice with a 63-byte
`XTS_AES_256_KEY` payload fails with the split's size error, not with the
duplicate-name error the claimed order would produce. -/
theorem c1_counterexample :
    burnKeyP4 testChip id false false false ["BLOCK_KEY0", "BLOCK_KEY0"]
        [key63, key32] ["XTS_AES_256_KEY", "XTS_AES_128_KEY"]
      = ([], some (Err.xtsSize 63))
    ∧ checkDuplicateNameInList ["BLOCK_KEY0", "BLOCK_KEY0"]
        = some "BLOCK_KEY0"
    ∧ Err.xtsSize 63 ≠ Err.duplicateBlock "BLOCK_KEY0" := by
  exact ⟨by decide, by decide, by decide⟩

/-- C1 (amended): the batch preconditions all run before any hardware
interaction, in this order: the family-specific wide-key split first
(including its own size check and free-block search), then the duplicate-name
check and the count check on the post-split lists, then — per entry, in batch
order — block resolution followed by that entry's payload-size check, the
first violation aborting the run. -/
theorem c1_precondition_order_amended
    (chip : Chip) (er : List Nat → List Nat) (dm nwp nrp : Bool)
    (bs : List String) (ds : List (List Nat)) (ks : List String) :
    ((burnKeyP4 chip er dm nwp nrp bs ds ks).2 ≠ none →
        Ev.burnAll ∉ (burnKeyP4 chip er dm nwp nrp bs ds ks).1) ∧
    ("XTS_AES_256_KEY" ∈ ks → ∀ e, split512 chip bs ds ks = .error e →
        burnKeyP4 chip er dm nwp nrp bs ds ks = ([], some e)) ∧
    ("XTS_AES_256_KEY" ∈ ks → ∀ bs2 ds2 ks2,
        split512 chip bs ds ks = .ok (bs2, ds2, ks2) →
        burnKeyP4 chip er dm nwp nrp bs ds ks
          = burnKeyP4Main chip er dm nwp nrp bs2 ds2 ks2) ∧
    ("XTS_AES_256_KEY" ∉ ks → ∀ n, checkDuplicateNameInList bs = some n →
        burnKeyP4 chip er dm nwp nrp bs ds ks
          = ([], some (.duplicateBlock n))) ∧
    ("XTS_AES_256_KEY" ∉ ks → checkDuplicateNameInList bs = none →
        (bs.length ≠ ds.length ∨ bs.length ≠ ks.length) →
        burnKeyP4 chip er dm nwp nrp bs ds ks
          = ([], some (.countMismatch bs.length ds.length ks.length))) ∧
    (∀ bn d kp bs' ds' ks',
        "XTS_AES_256_KEY" ∉ ks → bs = bn :: bs' → ds = d :: ds' →
        ks = kp :: ks' →
        checkDuplicateNameInList bs = none →
        bs.length = ds.length → bs.length = ks.length →
        (findEfuse chip.blocks bn = none →
            burnKeyP4 chip er dm nwp nrp bs ds ks
              = ([], some (.unknownBlock bn))) ∧
        (∀ blk n, findEfuse chip.blocks bn = some blk →
            (entryDataP4 chip er dm d kp).length = n → n ≠ blk.bitLen / 8 →
            burnKeyP4 chip er dm nwp nrp bs ds ks
              = ([], some (.sizeMismatch n (blk.bitLen / 8))))) := by
  refine ⟨?_, ?_, ?_, ?_, ?_, ?_⟩
  · unfold burnKeyP4
    by_cases hm : "XTS_AES_256_KEY" ∈ ks
    · rw [if_pos hm]
      cases hsp : split512 chip bs ds ks with
      | error e => intro h; simp
      | ok t =>
        obtain ⟨bs2, ds2, ks2⟩ := t
        exact burnKeyP4Main_error_no_burnAll chip er dm nwp nrp bs2 ds2 ks2
    · rw [if_neg hm]
      exact burnKeyP4Main_error_no_burnAll chip er dm nwp nrp bs ds ks
  · intro hm e hsp
    unfold burnKeyP4
    rw [if_pos hm, hsp]
  · intro hm bs2 ds2 ks2 hsp
    unfold burnKeyP4
    rw [if_pos hm, hsp]
  · intro hm n hdup
    unfold burnKeyP4
    rw [if_neg hm]
    unfold burnKeyP4Main
    rw [hdup]
  · intro hm hdup hcnt
    unfold burnKeyP4
    rw [if_neg hm]
    unfold burnKeyP4Main
    rw [hdup]
    rw [if_pos hcnt]
  · intro bn d kp bs' ds' ks' hm hb hd hk hdup hl1 hl2
    subst hb; subst hd; subst hk
    have hmain : burnKeyP4 chip er dm nwp nrp (bn :: bs') (d :: ds')
        (kp :: ks')
        = burnLoopP4 chip er dm nwp nrp
            (zip3 (bn :: bs') (d :: ds') (kp :: ks')) := by
      unfold burnKeyP4
      rw [if_neg hm]
      unfold burnKeyP4Main
      rw [hdup]
      rw [if_neg (by omega)]
    constructor
    · intro hnone
      rw [hmain]
      unfold burnLoopP4
      exact runEntries_cons_error (by dsimp only; exact burnEntryP4_unknown hnone) _
    · intro blk n hf hn hbad
      rw [hmain]
      unfold burnLoopP4
      exact runEntries_cons_error
        (by dsimp only; exact burnEntryP4_size_error hf hn hbad) _

theorem c1_witness :
    burnKeyP4 testChip id false false false ["BLOCK_KEY1", "BLOCK_KEY1"]
        [key32, key32] ["AES_A", "AES_B"]
      = ([], some (Err.duplicateBlock "BLOCK_KEY1")) :=
  ((c1_precondition_order_amended testChip id false false false
    ["BLOCK_KEY1", "BLOCK_KEY1"] [key32, key32] ["AES_A", "AES_B"]).2.2.2.1)
    (by decide) "BLOCK_KEY1" (by decide)

end Espefuse
